import Mathlib

/-!
Shallow embedding of the touhou-memory-archive acquisition pipeline
(`src/crawler/`) and proofs about its specified behaviour.

Python integers are modelled as `Nat`/`Int`, Python floats in the delay
formula as `ℚ`, Python strings as Lean `String` (indexed through
`String.toList`), Python dicts as association lists with distinct keys,
and fallible code as `Except`/`Option`.
-/

namespace Crawler

/-! ## Rate/Delay policy — `src/crawler/delay_manager.py`

`DelayManager.get_user_switch_delay` computes, over Python floats
(modelled as `ℚ`), from configuration
`{BASE_DELAY, MAX_DELAY, FACTOR_PER_VIDEO, JITTER_RATIO}` and the stored
`last_user_video_count`:
  dynamic_delay    = count * FACTOR_PER_VIDEO
  base_plus_dynamic = BASE_DELAY + dynamic_delay
  capped_delay     = min(base_plus_dynamic, MAX_DELAY)
  jitter           = capped_delay * JITTER_RATIO
  final_delay      = max(0, capped_delay + uniform(-jitter, jitter))
The draw of `uniform` is an input `u` here. -/

structure UserSwitchConfig where
  BASE_DELAY : ℚ
  MAX_DELAY : ℚ
  FACTOR_PER_VIDEO : ℚ
  JITTER_RATIO : ℚ

/-- `DelayManager.get_user_switch_delay`, with the `random.uniform` draw
passed in as `u`. -/
def get_user_switch_delay (cfg : UserSwitchConfig) (last_user_video_count : ℕ)
    (u : ℚ) : ℚ :=
  let dynamic_delay := (last_user_video_count : ℚ) * cfg.FACTOR_PER_VIDEO
  let base_plus_dynamic := cfg.BASE_DELAY + dynamic_delay
  let capped_delay := min base_plus_dynamic cfg.MAX_DELAY
  max 0 (capped_delay + u)

/-- The capped delay that `get_user_switch_delay` jitters around. -/
def capped_delay (cfg : UserSwitchConfig) (count : ℕ) : ℚ :=
  min (cfg.BASE_DELAY + (count : ℚ) * cfg.FACTOR_PER_VIDEO) cfg.MAX_DELAY

/-! ## HTTP requester retry loop — `src/crawler/bili_api_client.py`
(`BiliApiClient._make_request`) and the identical
`src/crawler/fetcher.py` (`make_api_request`).

One attempt of the loop body observes one of: an HTTP 412 response, a
transport-level error (`aiohttp.ClientError`), an HTTP response whose
JSON envelope has `code != 0` (or any other exception, e.g. the
extractor throwing), or a successful envelope handed to `process_data`.
The loop runs `retry_times` attempts; the list of outcomes below has one
entry per attempt that would be observed. -/

inductive AttemptOutcome (α : Type) where
  | throttled412
  | transportError (msg : String)
  | exceptionRaised (msg : String)
  | okEnvelope (d : α)
deriving Repr, DecidableEq

/-- `_make_request` / `make_api_request` retry loop over the listed
attempt outcomes (one per remaining attempt).  `.error` models the
function raising; `.ok (some b)` models `return process_data(data)`;
`.ok none` models the `for` loop being exhausted and the function
falling through (Python's implicit `return None`). -/
def make_api_request {α β : Type} (process_data : α → Except String β) :
    List (AttemptOutcome α) → Except String (Option β)
  | [] => .ok none
  | a :: rest =>
    match a with
    | .throttled412 => make_api_request process_data rest
    | .transportError msg =>
      if rest.isEmpty then .error ("API请求失败: " ++ msg)
      else make_api_request process_data rest
    | .exceptionRaised msg =>
      if rest.isEmpty then .error msg
      else make_api_request process_data rest
    | .okEnvelope d =>
      match process_data d with
      | .ok b => .ok (some b)
      | .error e =>
        if rest.isEmpty then .error e
        else make_api_request process_data rest

/-! ## Data model — `src/crawler/video.py` (pydantic models) -/

structure VideoPart where
  cid : ℕ
  page : ℕ
  part : String
  duration : ℕ
  ctime : ℕ
deriving Repr, DecidableEq

structure Video where
  aid : ℕ
  bvid : String
  mid : ℕ
  title : String
  description : Option String := none
  pic : String
  created : ℕ
  season_id : Option ℕ := none
  tags : List String := []
  parts : List VideoPart := []
  touhou_status : ℕ := 0
deriving Repr, DecidableEq

/-- Python truthiness of `video.season_id` (`if video.season_id:`):
`None` and `0` are falsy. -/
def seasonTruthy (v : Video) : Bool :=
  match v.season_id with
  | some n => n ≠ 0
  | none => false

/-- The bundle (season) id the producer's branch sees: `some sid` iff
`video.season_id` is truthy. -/
def bundleOf (v : Video) : Option ℕ :=
  match v.season_id with
  | some n => if n = 0 then none else some n
  | none => none

/-! ## Producer — `src/crawler/bili_api_client.py`
(`BiliApiClient.get_user_all_videos`)

The per-video branch of the producer (executed identically for page 1
and the pages 2..N loop) is

    if video.season_id and video.season_id not in processed_seasons:
        processed_seasons.add(video.season_id)
        season_videos = await self.get_season_videos(mid, video.season_id)
        for season_video in season_videos:
            await queue.put(season_video)
    elif not video.season_id:
        await queue.put(video)

State: the `processed_seasons` set (as a list), a log of season ids for
which `get_season_videos` was invoked, and the queue contents (as the
list of puts, in order).  `get_season_videos` is an oracle parameter
giving what bundle enumeration returns for a season id. -/

structure ProducerState where
  processed_seasons : List ℕ
  enumLog : List ℕ
  queue : List Video
deriving Repr

def initProducerState : ProducerState := ⟨[], [], []⟩

def produceStep (get_season_videos : ℕ → List Video)
    (st : ProducerState) (video : Video) : ProducerState :=
  match bundleOf video with
  | some sid =>
    if sid ∈ st.processed_seasons then st
    else
      { processed_seasons := sid :: st.processed_seasons,
        enumLog := st.enumLog ++ [sid],
        queue := st.queue ++ get_season_videos sid }
  | none => { st with queue := st.queue ++ [video] }

/-- Processing of a sequence of listed videos by the producer. -/
def processListing (get_season_videos : ℕ → List Video)
    (vs : List Video) (st : ProducerState := initProducerState) : ProducerState :=
  vs.foldl (produceStep get_season_videos) st

/-- One listing page as handed to the producer: the reported
`data.page.count` total and the parsed `data.list.vlist` videos. -/
structure PageResult where
  total : ℕ
  videos : List Video

/-- `BiliApiClient.get_user_all_videos`: fetch page 1, compute
`total_pages = (total_videos + page_size - 1) // page_size`, process
page 1's videos, return if `total_pages <= 1`, else fetch and process
pages `2..total_pages` in order.  `fetchPage` is the oracle for
`_fetch_page_with_retry` (no fetch failures); the first component of
the result is the list of page numbers fetched, in order. -/
def get_user_all_videos (fetchPage : ℕ → PageResult)
    (get_season_videos : ℕ → List Video) (page_size : ℕ) :
    List ℕ × ProducerState :=
  let first := fetchPage 1
  let total_videos := first.total
  let total_pages := (total_videos + page_size - 1) / page_size
  let st1 := processListing get_season_videos first.videos
  if total_pages ≤ 1 then ([1], st1)
  else
    (List.range' 2 (total_pages - 1)).foldl
      (fun acc page_num =>
        (acc.1 ++ [page_num],
         processListing get_season_videos (fetchPage page_num).videos acc.2))
      ([1], st1)

/-! ## Classification — `src/crawler/service.py` (`VideoService`) and
`src/crawler/main.py` (`is_touhou`)

`keyword in tag` is Python substring containment. -/

/-- Substring occurrence over character lists (Python `needle in hay`). -/
def listContains (hay needle : List Char) : Bool :=
  needle.isPrefixOf hay ||
    match hay with
    | [] => false
    | _ :: t => listContains t needle

def strContains (tag keyword : String) : Bool :=
  listContains tag.toList keyword.toList

/-- `VideoService.touhou_keywords` (identical to the set literal in
`main.py`'s `is_touhou`). -/
def touhou_keywords : List String :=
  ["东方Project", "东方project", "东方PROJECT",
   "東方Project", "東方project", "東方PROJECT",
   "Touhou", "東方", "车万", "ZUN", "Zun", "zun"]

/-- `VideoService._is_touhou` / `main.is_touhou`:
`1 if any(keyword in tag for tag in tags for keyword in keywords) else 2`. -/
def is_touhou (tags : List String) : ℕ :=
  if tags.any (fun tag => touhou_keywords.any (fun keyword => strContains tag keyword))
  then 1 else 2

/-- The anchored regex `^\$发现《.+?》\^$` of `VideoService.tag_pattern`:
matches iff the string — after discarding one trailing newline, which
Python's `$` permits — is `$发现《` ++ m ++ `》^` with `m` nonempty and
free of newline (`.` does not match a newline). -/
def tagPatternMatch (s : String) : Bool :=
  let cs₀ := s.toList
  let cs := if cs₀.getLast? = some (Char.ofNat 10) then cs₀.dropLast else cs₀
  let p := "$发现《".toList
  let q := "》^".toList
  decide (p.length + q.length + 1 ≤ cs.length) &&
    cs.take p.length == p &&
    cs.drop (cs.length - q.length) == q &&
    ((cs.drop p.length).take (cs.length - p.length - q.length)).all
      (fun c => c ≠ '\n')

/-! ## Persistence — `src/crawler/database.py` (`Database`)

The relevant columns of the `videos` and `video_parts` tables, with
`INSERT OR REPLACE` as a keyed upsert (key `aid` resp. `cid`): a
replaced `videos` row loses columns that `save_video_info` does not
supply, so `tags` is reset to NULL by it. -/

structure VideoRow where
  aid : ℕ
  bvid : String
  mid : ℕ
  title : String
  description : Option String
  pic : String
  created : ℕ
  touhou_status : ℕ
  tags : Option String
deriving Repr, DecidableEq

structure PartRow where
  cid : ℕ
  aid : ℕ
  page : ℕ
  part : String
  duration : ℕ
  ctime : ℕ
deriving Repr, DecidableEq

structure Store where
  videos : List VideoRow
  video_parts : List PartRow
deriving Repr, DecidableEq

def upsertVideoRow (r : VideoRow) (rows : List VideoRow) : List VideoRow :=
  if rows.any (fun x => x.aid = r.aid)
  then rows.map (fun x => if x.aid = r.aid then r else x)
  else rows ++ [r]

def upsertPartRow (r : PartRow) (rows : List PartRow) : List PartRow :=
  if rows.any (fun x => x.cid = r.cid)
  then rows.map (fun x => if x.cid = r.cid then r else x)
  else rows ++ [r]

def findVideo (s : Store) (aid : ℕ) : Option VideoRow :=
  s.videos.find? (fun r => r.aid = aid)

/-- `Database.save_video_info`: INSERT OR REPLACE of the video row from
the `Video` object (the `tags` column is not in the column list, so a
replaced row gets NULL there). -/
def save_video_info (video : Video) (s : Store) : Store :=
  let row : VideoRow :=
    { aid := video.aid, bvid := video.bvid, mid := video.mid,
      title := video.title, description := video.description,
      pic := video.pic, created := video.created,
      touhou_status := video.touhou_status, tags := none }
  { s with videos := upsertVideoRow row s.videos }

/-- One `cursor.execute` of `Database.save_parts_info`'s loop. -/
def insert_part_row (aid : ℕ) (p : VideoPart) (s : Store) : Store :=
  let row : PartRow :=
    { cid := p.cid, aid := aid, page := p.page, part := p.part,
      duration := p.duration, ctime := p.ctime }
  { s with video_parts := upsertPartRow row s.video_parts }

/-- `Database.save_video_tags`: UPDATE videos SET tags = joined WHERE aid. -/
def save_video_tags (aid : ℕ) (tags : List String) (s : Store) : Store :=
  { s with videos := s.videos.map (fun r =>
      if r.aid = aid then { r with tags := some (String.intercalate "," tags) } else r) }

/-- `Database.update_video_status`: UPDATE videos SET touhou_status WHERE aid. -/
def update_video_status (aid : ℕ) (touhou_status : ℕ) (s : Store) : Store :=
  { s with videos := s.videos.map (fun r =>
      if r.aid = aid then { r with touhou_status := touhou_status } else r) }

/-! ## Transactions

`Database` exposes `begin_transaction` (`BEGIN`), `commit_transaction`
(`conn.commit()`) and `rollback_transaction` (`conn.rollback()`).  A
`DBState` carries the durable store and the in-transaction view; writes
act on the in-transaction view, commit makes it durable, rollback
restores the durable store. -/

structure DBState where
  committed : Store
  pending : Store
deriving Repr, DecidableEq

def begin_transaction (db : DBState) : DBState := db

def commit_transaction (db : DBState) : DBState :=
  { db with committed := db.pending }

def rollback_transaction (db : DBState) : DBState :=
  { db with pending := db.committed }

def applyWrites (writes : List (Store → Store)) (db : DBState) : DBState :=
  { db with pending := writes.foldl (fun s w => w s) db.pending }

/-- Transactional run of a list of writes with fault injection:
`fault = none` is a normal run (`begin`, all writes, `commit`);
`fault = some k` raises after the first `k` writes, which triggers the
`except` path (`rollback`).  This models the explicit
`begin_transaction / commit_transaction / except: rollback_transaction`
of `process_video_batch.save_video` in `src/crawler/main.py`.
Modelled from the spec: the scoped `Database.transaction()` used by
`VideoService.process_video` (`src/crawler/service.py`) is absent from
`src/`; the spec defines it as "an acquired transaction that commits on
normal exit and rolls back on any fault on the exit path", which is the
same semantics. -/
def run_transaction (writes : List (Store → Store)) (fault : Option ℕ)
    (db : DBState) : DBState :=
  match fault with
  | none => commit_transaction (applyWrites writes (begin_transaction db))
  | some k => rollback_transaction (applyWrites (writes.take k) (begin_transaction db))

/-- The write list of `process_video_batch.save_video`
(`src/crawler/main.py`): `save_video_info`, one part insert per part,
`save_video_tags`, `update_video_status`. -/
def saveVideoWrites (video : Video) : List (Store → Store) :=
  save_video_info video :: video.parts.map (insert_part_row video.aid)
    ++ [save_video_tags video.aid video.tags,
        update_video_status video.aid (is_touhou video.tags)]

/-- `process_video_batch.save_video` with a fault injection point. -/
def save_video (video : Video) (fault : Option ℕ) (db : DBState) : DBState :=
  run_transaction (saveVideoWrites video) fault db

/-! ## Enrichment — `src/crawler/service.py` (`VideoService.process_video`)

The fetched tag and part lists for the video are inputs (`tags_dict` /
`parts_dict` lookups).  The video's tags are filtered of the internal
marker, classification is recomputed, and the video row alone is saved
inside the scoped transaction. -/

def enrich_video (video : Video) (video_tags : List String)
    (video_parts : List VideoPart) : Video :=
  let tags := video_tags.filter (fun tag => ¬ tagPatternMatch tag)
  { video with tags := tags, parts := video_parts,
               touhou_status := is_touhou tags }

/-- `VideoService.process_video` (normal run, no fault). -/
def process_video (db : DBState) (video : Video) (video_tags : List String)
    (video_parts : List VideoPart) : DBState :=
  run_transaction [save_video_info (enrich_video video video_tags video_parts)]
    none db

/-! ## MD5 (`hashlib.md5(...).hexdigest()`)

A reference implementation of MD5 over `ℕ` with explicit `% 2^32`,
written with structural recursion only so that concrete digests reduce
in the kernel. -/

namespace MD5

def M32 : ℕ := 4294967296

def add32 (a b : ℕ) : ℕ := (a + b) % M32

def rotl32 (x n : ℕ) : ℕ := (x * 2 ^ n + x / 2 ^ (32 - n)) % M32

/-- Bitwise combination of the low `fuel` bits of `a` and `b`. -/
def bitw (f : Bool → Bool → Bool) : ℕ → ℕ → ℕ → ℕ
  | 0, _, _ => 0
  | fuel + 1, a, b =>
    (cond (f (a % 2 = 1) (b % 2 = 1)) 1 0) + 2 * bitw f fuel (a / 2) (b / 2)

def and32 (a b : ℕ) : ℕ := bitw (fun x y => x && y) 32 a b
def or32 (a b : ℕ) : ℕ := bitw (fun x y => x || y) 32 a b
def xor32 (a b : ℕ) : ℕ := bitw (fun x y => xor x y) 32 a b
def not32 (a : ℕ) : ℕ := M32 - 1 - a % M32

def mdF (b c d : ℕ) : ℕ := or32 (and32 b c) (and32 (not32 b) d)
def mdG (b c d : ℕ) : ℕ := or32 (and32 d b) (and32 (not32 d) c)
def mdH (b c d : ℕ) : ℕ := xor32 b (xor32 c d)
def mdI (b c d : ℕ) : ℕ := xor32 c (or32 b (not32 d))

/-- The 64 round constants `floor(abs(sin(i+1)) * 2^32)`. -/
def K : List ℕ :=
  [3614090360, 3905402710, 606105819, 3250441966, 4118548399, 1200080426,
   2821735955, 4249261313, 1770035416, 2336552879, 4294925233, 2304563134,
   1804603682, 4254626195, 2792965006, 1236535329, 4129170786, 3225465664,
   643717713, 3921069994, 3593408605, 38016083, 3634488961, 3889429448,
   568446438, 3275163606, 4107603335, 1163531501, 2850285829, 4243563512,
   1735328473, 2368359562, 4294588738, 2272392833, 1839030562, 4259657740,
   2763975236, 1272893353, 4139469664, 3200236656, 681279174, 3936430074,
   3572445317, 76029189, 3654602809, 3873151461, 530742520, 3299628645,
   4096336452, 1126891415, 2878612391, 4237533241, 1700485571, 2399980690,
   4293915773, 2240044497, 1873313359, 4264355552, 2734768916, 1309151649,
   4149444226, 3174756917, 718787259, 3951481745]

/-- The per-round left-rotation amounts. -/
def S : List ℕ :=
  [7, 12, 17, 22, 7, 12, 17, 22, 7, 12, 17, 22, 7, 12, 17, 22,
   5, 9, 14, 20, 5, 9, 14, 20, 5, 9, 14, 20, 5, 9, 14, 20,
   4, 11, 16, 23, 4, 11, 16, 23, 4, 11, 16, 23, 4, 11, 16, 23,
   6, 10, 15, 21, 6, 10, 15, 21, 6, 10, 15, 21, 6, 10, 15, 21]

/-- UTF-8 encoding of one character (code point) as bytes. -/
def utf8Bytes (c : Char) : List ℕ :=
  let n := c.toNat
  if n < 128 then [n]
  else if n < 2048 then [192 + n / 64, 128 + n % 64]
  else if n < 65536 then
    [224 + n / 4096, 128 + (n / 64) % 64, 128 + n % 64]
  else
    [240 + n / 262144, 128 + (n / 4096) % 64, 128 + (n / 64) % 64,
     128 + n % 64]

/-- `s.encode()`: the UTF-8 bytes of a string. -/
def strBytes (s : String) : List ℕ := s.toList.flatMap utf8Bytes

/-- `k` little-endian bytes of `n`. -/
def toLE (k n : ℕ) : List ℕ := (List.range k).map (fun i => n / 256 ^ i % 256)

/-- MD5 padding: append `0x80`, zero bytes to 56 mod 64, and the
64-bit little-endian bit length. -/
def padMessage (msg : List ℕ) : List ℕ :=
  let len := msg.length
  let padZeros := (119 - len % 64) % 64
  msg ++ 128 :: List.replicate padZeros 0 ++ toLE 8 (8 * len % 2 ^ 64)

def chunksAux : ℕ → List ℕ → List (List ℕ)
  | 0, _ => []
  | _ + 1, [] => []
  | fuel + 1, l => l.take 64 :: chunksAux fuel (l.drop 64)

/-- Split into 64-byte chunks. -/
def chunks (l : List ℕ) : List (List ℕ) := chunksAux l.length l

/-- Word `j` (little-endian 32-bit) of a 64-byte chunk. -/
def word (chunk : List ℕ) (j : ℕ) : ℕ :=
  chunk.getD (4 * j) 0 + 256 * chunk.getD (4 * j + 1) 0
    + 65536 * chunk.getD (4 * j + 2) 0 + 16777216 * chunk.getD (4 * j + 3) 0

def roundStep (chunk : List ℕ) (st : ℕ × ℕ × ℕ × ℕ) (i : ℕ) : ℕ × ℕ × ℕ × ℕ :=
  let (a, b, c, d) := st
  let fg :=
    if i < 16 then (mdF b c d, i)
    else if i < 32 then (mdG b c d, (5 * i + 1) % 16)
    else if i < 48 then (mdH b c d, (3 * i + 5) % 16)
    else (mdI b c d, 7 * i % 16)
  let tmp := add32 (add32 (add32 a fg.1) (K.getD i 0)) (word chunk fg.2)
  (d, add32 b (rotl32 tmp (S.getD i 0)), b, c)

def processChunk (st : ℕ × ℕ × ℕ × ℕ) (chunk : List ℕ) : ℕ × ℕ × ℕ × ℕ :=
  let r := (List.range 64).foldl (roundStep chunk) st
  (add32 st.1 r.1, add32 st.2.1 r.2.1, add32 st.2.2.1 r.2.2.1,
   add32 st.2.2.2 r.2.2.2)

def initState : ℕ × ℕ × ℕ × ℕ := (1732584193, 4023233417, 2562383102, 271733878)

/-- The 16 digest bytes of a byte message. -/
def md5Bytes (msg : List ℕ) : List ℕ :=
  let r := (chunks (padMessage msg)).foldl processChunk initState
  toLE 4 r.1 ++ toLE 4 r.2.1 ++ toLE 4 r.2.2.1 ++ toLE 4 r.2.2.2

def hexCharLower (n : ℕ) : Char :=
  if n < 10 then Char.ofNat (48 + n) else Char.ofNat (87 + n)

/-- `hashlib.md5(s.encode()).hexdigest()` — lowercase hex digest. -/
def md5hex (s : String) : String :=
  String.mk ((md5Bytes (strBytes s)).flatMap
    (fun b => [hexCharLower (b / 16), hexCharLower (b % 16)]))

end MD5

/-! ## WBI signer — `src/crawler/wbi_signer.py` (`WbiSigner`)

Python dict values in the parameter map are ints or strings (`str(v)`
stringifies); a dict is an insertion-ordered association list with
distinct keys.  `params['wts'] = curr_time` is an in-place set:
rebind the key where it already occurs, else append. -/

inductive PVal where
  | str (s : String)
  | num (n : ℕ)
deriving Repr, DecidableEq

/-- Python `str(v)` on a parameter value. -/
def PVal.toStr : PVal → String
  | .str s => s
  | .num n => toString n

/-- `d[k] = v` on a dict. -/
def dictSet {β : Type} (l : List (String × β)) (k : String) (v : β) :
    List (String × β) :=
  if l.any (fun kv => kv.1 == k)
  then l.map (fun kv => if kv.1 == k then (k, v) else kv)
  else l ++ [(k, v)]

/-- `d.get(k)` on a dict. -/
def dictLookup {β : Type} (k : String) : List (String × β) → Option β
  | [] => none
  | kv :: t => if kv.1 == k then some kv.2 else dictLookup k t

/-- Lexicographic-by-code-point string order (Python `<=` on str). -/
def lexLe : List Char → List Char → Bool
  | [], _ => true
  | _ :: _, [] => false
  | a :: as, b :: bs =>
    if a.toNat < b.toNat then true
    else if b.toNat < a.toNat then false
    else lexLe as bs

def insertSorted {β : Type} (le : β → β → Bool) (a : β) : List β → List β
  | [] => [a]
  | b :: t => if le a b then a :: b :: t else b :: insertSorted le a t

/-- Insertion sort (the embedding of Python `sorted`). -/
def sortBy {β : Type} (le : β → β → Bool) : List β → List β
  | [] => []
  | a :: t => insertSorted le a (sortBy le t)

/-- `sorted(params.items())`: with the distinct keys of a dict, tuple
comparison is comparison of the keys. -/
def sortPairs {β : Type} (l : List (String × β)) : List (String × β) :=
  sortBy (fun a b => lexLe a.1.toList b.1.toList) l

def hexCharUpper (n : ℕ) : Char :=
  if n < 10 then Char.ofNat (48 + n) else Char.ofNat (55 + n)

/-- `urllib.parse.quote_plus` on one UTF-8 byte: alphanumerics and
`_.-~` kept, space to `+`, anything else percent-encoded (uppercase). -/
def quoteByte (b : ℕ) : List Char :=
  if (48 ≤ b ∧ b ≤ 57) ∨ (65 ≤ b ∧ b ≤ 90) ∨ (97 ≤ b ∧ b ≤ 122)
      ∨ b = 95 ∨ b = 46 ∨ b = 45 ∨ b = 126 then
    [Char.ofNat b]
  else if b = 32 then
    [Char.ofNat 43]
  else
    [Char.ofNat 37, hexCharUpper (b / 16), hexCharUpper (b % 16)]

def quote_plus (s : String) : String :=
  String.mk ((MD5.strBytes s).flatMap quoteByte)

/-- `urllib.parse.urlencode` on string-valued parameters. -/
def urlencode (params : List (String × String)) : String :=
  String.intercalate "&"
    (params.map (fun kv => quote_plus kv.1 ++ "=" ++ quote_plus kv.2))

namespace WbiSigner

/-- `WbiSigner.mixin_key_enc_tab`. -/
def mixin_key_enc_tab : List ℕ :=
  [46, 47, 18, 2, 53, 8, 23, 32, 15, 50, 10, 31, 58, 3, 45, 35, 27, 43, 5, 49,
   33, 9, 42, 19, 29, 28, 14, 39, 12, 38, 41, 13, 37, 48, 7, 16, 24, 55, 40,
   61, 26, 17, 0, 1, 60, 51, 30, 4, 22, 25, 54, 21, 56, 59, 6, 63, 57, 62, 11,
   36, 20, 34, 44, 52]

/-- `WbiSigner.get_mixin_key`:
`reduce(lambda s, i: s + orig[i], mixin_key_enc_tab, '')[:32]`.
Python raises IndexError when `orig` is shorter than 64 characters
(largest table index 63); `getD` totalizes that error path, so theorems
about `enc_wbi` carry the hypothesis `64 ≤ (img_key ++ sub_key).length`
confining them to where the source is defined. -/
def get_mixin_key (orig : String) : String :=
  String.mk ((mixin_key_enc_tab.foldl
    (fun s i => s ++ [orig.toList.getD i ' ']) []).take 32)

/-- The characters removed from values: `"!'()*"`. -/
def bannedChars : List Char := ['!', Char.ofNat 39, '(', ')', '*']

/-- `''.join(filter(lambda chr: chr not in "!'()*", str(v)))`. -/
def filter_value (s : String) : String :=
  String.mk (s.toList.filter (fun c => ¬ bannedChars.contains c))

/-- `WbiSigner.enc_wbi`, with the clock reading `round(time.time())`
passed in as `curr_time`.  The first component is the caller's dict
after the call (`params['wts'] = curr_time` mutates it in place); the
second is the returned map. -/
def enc_wbi (params : List (String × PVal)) (img_key sub_key : String)
    (curr_time : ℕ) : List (String × PVal) × List (String × String) :=
  let mixin_key := get_mixin_key (img_key ++ sub_key)
  let params₀ := dictSet params "wts" (PVal.num curr_time)
  let sorted := sortPairs params₀
  let filtered := sorted.map (fun kv => (kv.1, filter_value kv.2.toStr))
  let query := urlencode filtered
  let wbi_sign := MD5.md5hex (query ++ mixin_key)
  (params₀, dictSet filtered "w_rid" wbi_sign)

/-- The signing algorithm as the spec words it, step by step:
1. permute `img_key + sub_key` by the fixed 64-element index table and
   truncate to 32 characters — the mixin key;
2. insert a `wts` parameter;
3. sort parameters by key (lexicographic by code point);
4. stringify every value and remove the characters `! ' ( ) *`;
5. URL-form-encode into a canonical query string;
6. set `w_rid` to the lowercase-hex MD5 of `canonical_query + mixin_key`. -/
def spec_sign (params : List (String × PVal)) (img_key sub_key : String)
    (wts : ℕ) : List (String × String) :=
  let mixin_key := String.mk
    ((mixin_key_enc_tab.map
      (fun i => (img_key ++ sub_key).toList.getD i ' ')).take 32)
  let withWts := dictSet params "wts" (PVal.num wts)
  let bykey := sortPairs withWts
  let stringified := bykey.map (fun kv => (kv.1, filter_value kv.2.toStr))
  let canonical_query := urlencode stringified
  dictSet stringified "w_rid" (MD5.md5hex (canonical_query ++ mixin_key))

end WbiSigner

/-! ## Listing-page parsing — `BiliApiClient._fetch_video_page`
(`src/crawler/bili_api_client.py`) and `fetch_video_page`
(`src/crawler/fetcher.py`)

An entry of `data['data']['list']['vlist']` is `none` for a null entry,
`some it` otherwise; `parse` is the oracle for constructing a `Video`
from a raw entry (`Video.model_validate` resp. `Video(item)`), failing
with a message when the entry cannot be parsed. -/

/-- `bili_api_client.py`:
`page_videos = [Video.model_validate(video) for video in vlist if video]`
— the first parse failure propagates out of the comprehension and fails
the whole page. -/
def process_video_page_bili {α : Type} (parse : α → Except String Video) :
    List (Option α) → Except String (List Video)
  | [] => .ok []
  | none :: rest => process_video_page_bili parse rest
  | some it :: rest =>
    match parse it with
    | .error e => .error e
    | .ok v =>
      match process_video_page_bili parse rest with
      | .error e => .error e
      | .ok vs => .ok (v :: vs)

/-- `fetcher.py`: the loop that `continue`s on a falsy entry and
logs-and-skips an entry whose parse raises. -/
def process_video_page_fetcher {α : Type} (parse : α → Except String Video)
    (vlist : List (Option α)) : List Video :=
  vlist.foldl
    (fun page_videos item =>
      match item with
      | none => page_videos
      | some it =>
        match parse it with
        | .ok v => page_videos ++ [v]
        | .error _ => page_videos)
    []

end Crawler

/-! # Concrete demonstration data -/

namespace Crawler

def demoVideo : Video :=
  { aid := 1, bvid := "BV1xx411c7XX", mid := 10, title := "demo",
    pic := "p", created := 100,
    tags := ["Touhou"], parts := [⟨11, 1, "P1", 60, 100⟩] }

/-- A stored row for the same video whose classification was manually
confirmed (`touhou_status = 4`, confirmed_no_match). -/
def demoStoredRow : VideoRow :=
  { aid := 1, bvid := "BV1xx411c7XX", mid := 10, title := "demo",
    description := none, pic := "p", created := 100,
    touhou_status := 4, tags := some "旧标签" }

def demoDB : DBState := ⟨⟨[], []⟩, ⟨[], []⟩⟩

def demoDBConfirmed : DBState :=
  ⟨⟨[demoStoredRow], []⟩, ⟨[demoStoredRow], []⟩⟩

def demoVideo2 : Video :=
  { aid := 2, bvid := "BV2yy411c7YY", mid := 10, title := "demo2",
    pic := "q", created := 101 }

def demoImgKey : String := "7cd084941338484aae1ad9425b84077c"

def demoSubKey : String := "4932caff0ff746eab6f01bf08b70ac45"

end Crawler

/-! # Helper lemmas -/

namespace Crawler

theorem foldl_fst_append {α β : Type} (g : β → α → β) (l : List α)
    (init1 : List α) (init2 : β) :
    ((l.foldl (fun acc p => (acc.1 ++ [p], g acc.2 p)) (init1, init2)).1
      = init1 ++ l) := by
  induction l generalizing init1 init2 with
  | nil => simp
  | cons a t ih => simp [List.foldl_cons, ih]

theorem processListing_append (gs : ℕ → List Video) (vs : List Video)
    (v : Video) (st : ProducerState) :
    processListing gs (vs ++ [v]) st
      = produceStep gs (processListing gs vs st) v := by
  simp [processListing, List.foldl_append]

/-- Producer state invariant: the log of bundle enumerations is
duplicate-free, agrees in membership with the `processed_seasons` set,
and holds exactly the (truthy) bundle ids of the videos listed so far. -/
theorem producer_state_invariant (gs : ℕ → List Video) (vs : List Video) :
    (processListing gs vs).enumLog.Nodup
    ∧ (∀ b, b ∈ (processListing gs vs).processed_seasons
          ↔ b ∈ (processListing gs vs).enumLog)
    ∧ (∀ b, b ∈ (processListing gs vs).enumLog
          ↔ ∃ v ∈ vs, bundleOf v = some b) := by
  have hexists : ∀ (vs' : List Video) (v : Video) (b : ℕ),
      (∃ v' ∈ vs' ++ [v], bundleOf v' = some b)
        ↔ (∃ v' ∈ vs', bundleOf v' = some b) ∨ bundleOf v = some b := by
    intro vs' v b
    constructor
    · rintro ⟨v', hv', hv'b⟩
      rcases List.mem_append.mp hv' with h | h
      · exact Or.inl ⟨v', h, hv'b⟩
      · obtain rfl : v' = v := List.mem_singleton.mp h
        exact Or.inr hv'b
    · rintro (⟨v', hv', hv'b⟩ | hvb)
      · exact ⟨v', List.mem_append_left _ hv', hv'b⟩
      · exact ⟨v, List.mem_append_right _ (List.mem_singleton_self v), hvb⟩
  induction vs using List.reverseRecOn with
  | nil => simp [processListing, initProducerState]
  | append_singleton vs v ih =>
    obtain ⟨h1, h2, h3⟩ := ih
    rw [processListing_append]
    rcases hb : bundleOf v with _ | sid
    · have e1 : (produceStep gs (processListing gs vs) v).enumLog
          = (processListing gs vs).enumLog := by simp [produceStep, hb]
      have e2 : (produceStep gs (processListing gs vs) v).processed_seasons
          = (processListing gs vs).processed_seasons := by simp [produceStep, hb]
      rw [e1, e2]
      refine ⟨h1, h2, fun b => ?_⟩
      rw [hexists vs v b, h3 b, hb]
      simp
    · by_cases hmem : sid ∈ (processListing gs vs).processed_seasons
      · have hstep : produceStep gs (processListing gs vs) v
            = processListing gs vs := by simp [produceStep, hb, hmem]
        rw [hstep]
        refine ⟨h1, h2, fun b => ?_⟩
        rw [hexists vs v b, h3 b, hb]
        constructor
        · exact Or.inl
        · rintro (h | h)
          · exact h
          · have hb' : sid = b := Option.some.inj h
            subst hb'
            exact (h3 sid).mp ((h2 sid).mp hmem)
      · have hsid : sid ∉ (processListing gs vs).enumLog :=
          fun h => hmem ((h2 sid).mpr h)
        have e1 : (produceStep gs (processListing gs vs) v).enumLog
            = (processListing gs vs).enumLog ++ [sid] := by
          simp [produceStep, hb, hmem]
        have e2 : (produceStep gs (processListing gs vs) v).processed_seasons
            = sid :: (processListing gs vs).processed_seasons := by
          simp [produceStep, hb, hmem]
        rw [e1, e2]
        refine ⟨?_, fun b => ?_, fun b => ?_⟩
        · rw [List.nodup_append]
          exact ⟨h1, List.nodup_singleton sid,
            fun x hx hx' => hsid ((List.mem_singleton.mp hx') ▸ hx)⟩
        · rw [List.mem_cons, List.mem_append, List.mem_singleton, h2 b]
          tauto
        · rw [List.mem_append, List.mem_singleton, hexists vs v b, h3 b, hb]
          constructor
          · rintro (h | rfl)
            · exact Or.inl h
            · exact Or.inr rfl
          · rintro (h | h)
            · exact Or.inl h
            · exact Or.inr (Option.some.inj h).symm

theorem foldl_push_eq_map {α β : Type} (f : α → β) (l : List α) (init : List β) :
    l.foldl (fun s i => s ++ [f i]) init = init ++ l.map f := by
  induction l generalizing init with
  | nil => simp
  | cons a t ih => simp [List.foldl_cons, ih]

/-- The source's fold-and-truncate mixin computation equals mapping the
index table and truncating. -/
theorem get_mixin_key_eq_map (orig : String) :
    WbiSigner.get_mixin_key orig
      = String.mk ((WbiSigner.mixin_key_enc_tab.map
          (fun i => orig.toList.getD i ' ')).take 32) := by
  simp [WbiSigner.get_mixin_key, foldl_push_eq_map]

/-- The value-rebinding map of `dictSet` is the identity on a list
without the key. -/
theorem map_set_id {β : Type} (k : String) (w : β) :
    ∀ (t : List (String × β)), (t.any fun kv => kv.1 == k) = false →
      t.map (fun kv => if kv.1 == k then (k, w) else kv) = t
  | [], _ => rfl
  | kv :: t, ht => by
    have h1 : (kv.1 == k) = false ∧ (t.any fun kv => kv.1 == k) = false := by
      constructor <;> (by_contra hc
                       simp only [Bool.not_eq_false] at hc
                       simp [List.any_cons, hc] at ht)
    rw [List.map_cons, if_neg (by simp [h1.1] : ¬ ((kv.1 == k) = true)),
      map_set_id k w t h1.2]

theorem dictSet_dictSet {β : Type} (l : List (String × β)) (k : String)
    (v w : β) : dictSet (dictSet l k v) k w = dictSet l k w := by
  by_cases h : l.any (fun kv => kv.1 == k)
  · have h1 : (l.map (fun kv => if kv.1 == k then (k, v) else kv)).any
        (fun kv => kv.1 == k) = true := by
      rw [List.any_map]
      rcases List.any_eq_true.mp h with ⟨kv, hkv, hk⟩
      exact List.any_eq_true.mpr ⟨kv, hkv, by simp [Function.comp, hk]⟩
    simp only [dictSet, h, if_true, h1, List.map_map]
    congr 1
    funext kv
    by_cases hk : kv.1 == k <;> simp [Function.comp, hk]
  · have hf : (l.any fun kv => kv.1 == k) = false := by
      cases hx : l.any (fun kv => kv.1 == k) with
      | false => rfl
      | true => exact absurd hx h
    have h2 : ((l ++ [(k, v)]).any (fun kv => kv.1 == k)) = true := by
      simp [List.any_append]
    simp only [dictSet, hf, Bool.false_eq_true, if_false, h2, if_true,
      List.map_append]
    rw [map_set_id k w l hf]
    simp

theorem dictLookup_map_set_ne {β : Type} (k k₀ : String) (v : β)
    (h : (k₀ == k) = false) (l : List (String × β)) :
    dictLookup k (l.map (fun kv => if kv.1 == k₀ then (k₀, v) else kv))
      = dictLookup k l := by
  induction l with
  | nil => rfl
  | cons kv t ih =>
    by_cases hk₀ : kv.1 = k₀
    · have himg : (if kv.1 == k₀ then (k₀, v) else kv) = (k₀, v) := by
        simp [hk₀]
      have hkk : (kv.1 == k) = false := by
        rw [hk₀]; exact h
      simp only [List.map_cons, himg, dictLookup, h, hkk,
        Bool.false_eq_true, if_false]
      exact ih
    · have himg : (if kv.1 == k₀ then (k₀, v) else kv) = kv := by
        simp [hk₀]
      simp only [List.map_cons, himg, dictLookup]
      by_cases hk : kv.1 == k
      · simp [hk]
      · have hkf : (kv.1 == k) = false := by simpa using hk
        simp only [hkf, Bool.false_eq_true, if_false]
        exact ih

theorem dictLookup_append_single_ne {β : Type} (k k₀ : String) (v : β)
    (h : (k₀ == k) = false) (l : List (String × β)) :
    dictLookup k (l ++ [(k₀, v)]) = dictLookup k l := by
  induction l with
  | nil => simp [dictLookup, h]
  | cons kv t ih =>
    by_cases hk : kv.1 == k
    · simp [dictLookup, hk]
    · have hkf : (kv.1 == k) = false := by simpa using hk
      simp only [List.cons_append, dictLookup, hkf, Bool.false_eq_true,
        if_false]
      exact ih

/-- Setting a key the later `dictSet` also sets leaves no trace. -/
theorem dictLookup_dictSet_ne {β : Type} (l : List (String × β))
    (k k₀ : String) (v : β) (h : k ≠ k₀) :
    dictLookup k (dictSet l k₀ v) = dictLookup k l := by
  have hb : (k₀ == k) = false := by
    simpa using (Ne.symm h)
  unfold dictSet
  by_cases ha : l.any (fun kv => kv.1 == k₀)
  · simp only [ha, if_true]
    exact dictLookup_map_set_ne k k₀ v hb l
  · simp only [ha, if_false]
    exact dictLookup_append_single_ne k k₀ v hb l

end Crawler

/-! # Theorems -/

/-- **C1.** The claim states that a video whose stored classification is
`confirmed_match`/`confirmed_no_match` (3/4) is never overwritten by a
re-ingest and that `auto_match` (1) is stored only when no prior
confirmed state exists.  The code has no such guard:
`VideoService.process_video` recomputes `touhou_status` from the
filtered tags and `Database.save_video_info` INSERT-OR-REPLACEs the
row unconditionally.  Evaluated at a store holding the video at
`confirmed_no_match` (4) and a re-ingest whose fetched tags are
`["Touhou"]`, the stored classification becomes `auto_match` (1). -/
theorem process_video_overwrites_confirmed :
    ((Crawler.findVideo Crawler.demoDBConfirmed.committed 1).map
        Crawler.VideoRow.touhou_status = some 4)
    ∧ ((Crawler.findVideo
          (Crawler.process_video Crawler.demoDBConfirmed Crawler.demoVideo
            ["Touhou"] []).committed 1).map
        Crawler.VideoRow.touhou_status = some 1) := by
  constructor <;> decide

/-- **C2.** The save path of `process_video_batch.save_video` commits
exactly when the whole save completes normally: a normal run (`fault =
none`) commits the video row, every part row, the tags update and the
status update together, and a fault raised after any prefix of those
writes (`fault = some k`, for every `k` — in particular between part
inserts) rolls back and leaves the durable store unchanged, so no
proper subset of part rows is ever committed. -/
theorem save_video_atomic (db : Crawler.DBState) (video : Crawler.Video)
    (fault : Option ℕ) (hwf : db.pending = db.committed) :
    (Crawler.save_video video fault db).committed
      = (match fault with
         | none => (Crawler.saveVideoWrites video).foldl (fun s w => w s) db.committed
         | some _ => db.committed)
    ∧ (Crawler.save_video video fault db).pending
      = (Crawler.save_video video fault db).committed := by
  cases fault with
  | none =>
    refine ⟨?_, ?_⟩ <;>
      simp [Crawler.save_video, Crawler.run_transaction,
        Crawler.commit_transaction, Crawler.begin_transaction,
        Crawler.applyWrites, hwf]
  | some k =>
    refine ⟨rfl, ?_⟩
    simp [Crawler.save_video, Crawler.run_transaction,
      Crawler.rollback_transaction, Crawler.begin_transaction,
      Crawler.applyWrites]

/-- Witness for C2: a fault after the first write (between
`save_video_info` and the part inserts) leaves the store unchanged. -/
theorem save_video_atomic_witness :
    Crawler.demoDB.pending = Crawler.demoDB.committed
    ∧ ((Crawler.save_video Crawler.demoVideo (some 1) Crawler.demoDB).committed
          = Crawler.demoDB.committed
       ∧ (Crawler.save_video Crawler.demoVideo (some 1) Crawler.demoDB).pending
          = (Crawler.save_video Crawler.demoVideo (some 1) Crawler.demoDB).committed) :=
  ⟨rfl, save_video_atomic Crawler.demoDB Crawler.demoVideo (some 1) rfl⟩

/-- **C9.** For every stored last-uploader video count, every
configuration (nonnegative delays and jitter ratio, as configured
delays are) and every admissible uniform draw
`u ∈ [-capped*JITTER_RATIO, capped*JITTER_RATIO]`, the returned
inter-uploader delay equals `max 0 (capped + u)` where
`capped = min (BASE_DELAY + count*FACTOR_PER_VIDEO) MAX_DELAY`; in
particular it is nonnegative and at most `capped * (1 + JITTER_RATIO)`. -/
theorem get_user_switch_delay_spec (cfg : Crawler.UserSwitchConfig) (count : ℕ) (u : ℚ)
    (hB : 0 ≤ cfg.BASE_DELAY) (hM : 0 ≤ cfg.MAX_DELAY)
    (hF : 0 ≤ cfg.FACTOR_PER_VIDEO) (hJ : 0 ≤ cfg.JITTER_RATIO)
    (hu₁ : -(Crawler.capped_delay cfg count * cfg.JITTER_RATIO) ≤ u)
    (hu₂ : u ≤ Crawler.capped_delay cfg count * cfg.JITTER_RATIO) :
    Crawler.get_user_switch_delay cfg count u
        = max 0 (Crawler.capped_delay cfg count + u)
      ∧ 0 ≤ Crawler.get_user_switch_delay cfg count u
      ∧ Crawler.get_user_switch_delay cfg count u
        ≤ Crawler.capped_delay cfg count * (1 + cfg.JITTER_RATIO) := by
  have hcap : 0 ≤ Crawler.capped_delay cfg count := by
    have : 0 ≤ cfg.BASE_DELAY + (count : ℚ) * cfg.FACTOR_PER_VIDEO := by positivity
    exact le_min this hM
  refine ⟨rfl, le_max_left _ _, ?_⟩
  have h1 : Crawler.capped_delay cfg count + u
      ≤ Crawler.capped_delay cfg count * (1 + cfg.JITTER_RATIO) := by
    have := hu₂
    nlinarith
  have h0 : (0 : ℚ) ≤ Crawler.capped_delay cfg count * (1 + cfg.JITTER_RATIO) := by
    nlinarith
  exact max_le h0 h1

/-- Witness for C9 at `BASE_DELAY = 5`, `MAX_DELAY = 10`,
`FACTOR_PER_VIDEO = 1`, `JITTER_RATIO = 1/2`, `count = 3`, `u = 2`. -/
theorem get_user_switch_delay_spec_witness :
    Crawler.get_user_switch_delay ⟨5, 10, 1, 1/2⟩ 3 2
        = max 0 (Crawler.capped_delay ⟨5, 10, 1, 1/2⟩ 3 + 2)
      ∧ 0 ≤ Crawler.get_user_switch_delay ⟨5, 10, 1, 1/2⟩ 3 2
      ∧ Crawler.get_user_switch_delay ⟨5, 10, 1, 1/2⟩ 3 2
          ≤ Crawler.capped_delay ⟨5, 10, 1, 1/2⟩ 3 * (1 + 1/2) :=
  get_user_switch_delay_spec ⟨5, 10, 1, 1/2⟩ 3 2
    (by norm_num) (by norm_num) (by norm_num) (by norm_num)
    (by norm_num [Crawler.capped_delay]) (by norm_num [Crawler.capped_delay])

/-- **C7.** Within one producer run for one uploader, every bundle
(season) id is expanded at most once: the enumeration log is
duplicate-free and holds exactly the bundle ids carried by listed
videos; extending the listing by one video `v` enqueues `v` itself when
it carries no bundle id, enqueues the bundle's videos (and logs one
enumeration) instead of the entry when its bundle id is fresh, and
enqueues nothing and logs no enumeration when its bundle id was already
seen. -/
theorem producer_expands_each_bundle_once (gs : ℕ → List Crawler.Video)
    (vs : List Crawler.Video) :
    (Crawler.processListing gs vs).enumLog.Nodup
    ∧ (∀ b, b ∈ (Crawler.processListing gs vs).enumLog
          ↔ ∃ v ∈ vs, Crawler.bundleOf v = some b)
    ∧ (∀ v, (Crawler.processListing gs (vs ++ [v])).queue
        = (Crawler.processListing gs vs).queue
          ++ (match Crawler.bundleOf v with
              | none => [v]
              | some b =>
                if b ∈ (Crawler.processListing gs vs).enumLog then []
                else gs b))
    ∧ (∀ v, (Crawler.processListing gs (vs ++ [v])).enumLog
        = (Crawler.processListing gs vs).enumLog
          ++ (match Crawler.bundleOf v with
              | none => []
              | some b =>
                if b ∈ (Crawler.processListing gs vs).enumLog then []
                else [b])) := by
  obtain ⟨h1, h2, h3⟩ := Crawler.producer_state_invariant gs vs
  refine ⟨h1, h3, fun v => ?_, fun v => ?_⟩ <;>
  · rw [Crawler.processListing_append]
    rcases hb : Crawler.bundleOf v with _ | sid
    · simp [Crawler.produceStep, hb]
    · by_cases hmem : sid ∈ (Crawler.processListing gs vs).processed_seasons
      · have hlog : sid ∈ (Crawler.processListing gs vs).enumLog :=
          (h2 sid).mp hmem
        simp [Crawler.produceStep, hb, hmem, hlog]
      · have hlog : sid ∉ (Crawler.processListing gs vs).enumLog :=
          fun h => hmem ((h2 sid).mpr h)
        simp [Crawler.produceStep, hb, hmem, hlog]

/-- **C8.** The producer computes `total_pages` as the ceiling of
page 1's reported total divided by `page_size`; when the uploader has at
most `page_size` videos (including a reported total of 0) it processes
only page 1's videos and fetches no page 2; otherwise it fetches exactly
pages `2..total_pages` in increasing order (so the full fetch log is
`[1, 2, ..., total_pages]`). -/
theorem producer_pagination_spec (fp : ℕ → Crawler.PageResult)
    (gs : ℕ → List Crawler.Video) (page_size : ℕ) (hps : 0 < page_size) :
    ((fp 1).total + page_size - 1) / page_size = (fp 1).total ⌈/⌉ page_size
    ∧ ((fp 1).total ≤ page_size →
        Crawler.get_user_all_videos fp gs page_size
          = ([1], Crawler.processListing gs (fp 1).videos))
    ∧ (page_size < (fp 1).total →
        (Crawler.get_user_all_videos fp gs page_size).1
          = List.range' 1 (((fp 1).total + page_size - 1) / page_size)) := by
  refine ⟨(Nat.ceilDiv_eq_add_pred_div _ _).symm, fun hle => ?_, fun hlt => ?_⟩
  · have htp : ((fp 1).total + page_size - 1) / page_size ≤ 1 :=
      Nat.lt_succ_iff.mp ((Nat.div_lt_iff_lt_mul hps).mpr (by omega))
    simp [Crawler.get_user_all_videos, htp]
  · have htp : 2 ≤ ((fp 1).total + page_size - 1) / page_size :=
      (Nat.le_div_iff_mul_le hps).mpr (by omega)
    have hnot : ¬ ((fp 1).total + page_size - 1) / page_size ≤ 1 := by omega
    simp only [Crawler.get_user_all_videos, hnot, if_false]
    rw [Crawler.foldl_fst_append (fun st p => Crawler.processListing gs (fp p).videos st)]
    obtain ⟨k, hk⟩ : ∃ k, ((fp 1).total + page_size - 1) / page_size = k + 2 :=
      ⟨((fp 1).total + page_size - 1) / page_size - 2, by omega⟩
    rw [hk]
    rfl

/-- Witness for C8 at `fetchPage ≡ (total 3, no videos)`,
`get_season_videos ≡ []`, `page_size = 2`. -/
theorem producer_pagination_spec_witness :
    ((((fun _ => ⟨3, []⟩) : ℕ → Crawler.PageResult) 1).total + 2 - 1) / 2
        = (((fun _ => ⟨3, []⟩) : ℕ → Crawler.PageResult) 1).total ⌈/⌉ 2
    ∧ ((((fun _ => ⟨3, []⟩) : ℕ → Crawler.PageResult) 1).total ≤ 2 →
        Crawler.get_user_all_videos (fun _ => ⟨3, []⟩) (fun _ => []) 2
          = ([1], Crawler.processListing (fun _ => [])
              (((fun _ => ⟨3, []⟩) : ℕ → Crawler.PageResult) 1).videos))
    ∧ (2 < (((fun _ => ⟨3, []⟩) : ℕ → Crawler.PageResult) 1).total →
        (Crawler.get_user_all_videos (fun _ => ⟨3, []⟩) (fun _ => []) 2).1
          = List.range' 1
              (((((fun _ => ⟨3, []⟩) : ℕ → Crawler.PageResult) 1).total + 2 - 1) / 2)) :=
  producer_pagination_spec (fun _ => ⟨3, []⟩) (fun _ => []) 2 (by decide)

/-- **C10.** If every one of the `retry_times` attempts of
`_make_request` / `make_api_request` observes HTTP status 412, the 412
branch's `continue` exhausts the attempt loop and the function neither
raises nor returns an extracted result: it falls through and returns
`None` (here `.ok none`). -/
theorem make_api_request_all_throttled {α β : Type}
    (process_data : α → Except String β) (retry_times : ℕ) :
    Crawler.make_api_request process_data
        (List.replicate retry_times (.throttled412 : Crawler.AttemptOutcome α))
      = .ok none := by
  induction retry_times with
  | zero => rfl
  | succ n ih => simpa [List.replicate, Crawler.make_api_request] using ih

/-- **C3.** The signing function follows exactly the specified steps:
mixin key = `img_key + sub_key` permuted by the fixed 64-element index
table and truncated to 32 characters; `wts` inserted; parameters sorted
by key (lexicographic by code point); values stringified with
`! ' ( ) *` removed; URL-form-encoded into a canonical query; `w_rid` =
lowercase-hex MD5 of `canonical_query + mixin_key`.  Stated on key
material of the real length (two 32-character keys): for shorter keys
the Python indexing `orig[i]` would raise. -/
theorem enc_wbi_follows_spec (params : List (String × Crawler.PVal))
    (img_key sub_key : String) (curr_time : ℕ)
    (h : 64 ≤ (img_key ++ sub_key).length) :
    (Crawler.WbiSigner.enc_wbi params img_key sub_key curr_time).2
      = Crawler.WbiSigner.spec_sign params img_key sub_key curr_time := by
  simp [Crawler.WbiSigner.enc_wbi, Crawler.WbiSigner.spec_sign,
    Crawler.get_mixin_key_eq_map]

/-- Witness for C3 at two real-shaped 32-character keys. -/
theorem enc_wbi_follows_spec_witness :
    64 ≤ (Crawler.demoImgKey ++ Crawler.demoSubKey).length
    ∧ (Crawler.WbiSigner.enc_wbi [("mid", .num 12345)] Crawler.demoImgKey
          Crawler.demoSubKey 1702204169).2
        = Crawler.WbiSigner.spec_sign [("mid", .num 12345)] Crawler.demoImgKey
            Crawler.demoSubKey 1702204169 :=
  ⟨by decide, enc_wbi_follows_spec _ _ _ _ (by decide)⟩

set_option maxRecDepth 10000 in
/-- **C4 counterexample.** The claim promises byte-identical output for
a fixed input map that already includes `wts`; but `enc_wbi` overwrites
`wts` with the observed clock second, so the same input signed at
seconds 100 and 200 yields different output maps. -/
theorem enc_wbi_not_reproducible_with_wts_fixed :
    (Crawler.WbiSigner.enc_wbi [("wts", .num 1)] Crawler.demoImgKey
        Crawler.demoSubKey 100).2
      ≠ (Crawler.WbiSigner.enc_wbi [("wts", .num 1)] Crawler.demoImgKey
          Crawler.demoSubKey 200).2 := by
  decide

/-- **C4 (amended).** The signing function is deterministic given the
keys, the input map and the observed clock second; the output is
independent of any `wts` value already present in the input map
(`enc_wbi` overwrites it with the clock), so only invocations observing
the same current second are guaranteed byte-identical output. -/
theorem enc_wbi_deterministic_in_clock (params : List (String × Crawler.PVal))
    (img_key sub_key : String) (curr_time : ℕ) (v : Crawler.PVal) :
    (Crawler.WbiSigner.enc_wbi (Crawler.dictSet params "wts" v) img_key
        sub_key curr_time).2
      = (Crawler.WbiSigner.enc_wbi params img_key sub_key curr_time).2 := by
  simp only [Crawler.WbiSigner.enc_wbi]
  rw [Crawler.dictSet_dictSet]

/-- **C5 counterexample.** The claim says the caller's input map is
left unchanged; but `params['wts'] = curr_time` mutates it: with
real-length keys (two 32-character keys, so the preceding
`get_mixin_key` indexing is defined and the mutation line is reached),
signing the empty map leaves the caller's map holding a `wts` entry. -/
theorem enc_wbi_mutates_caller_map :
    (Crawler.WbiSigner.enc_wbi [] Crawler.demoImgKey Crawler.demoSubKey 5).1
      ≠ ([] : List (String × Crawler.PVal)) := by
  decide

/-- **C5 (amended).** For key material of the real length (at least 64
characters of `img_key + sub_key`, where the mixin-key indexing that
runs first is defined), the signing function returns a fresh map, but
it first sets `wts` on the caller's input map in place; apart from
adding/rebinding `wts`, the caller's map is unchanged (every other key
keeps its binding). -/
theorem enc_wbi_mutation_only_wts (params : List (String × Crawler.PVal))
    (img_key sub_key : String) (curr_time : ℕ)
    (h : 64 ≤ (img_key ++ sub_key).length) :
    (Crawler.WbiSigner.enc_wbi params img_key sub_key curr_time).1
      = Crawler.dictSet params "wts" (Crawler.PVal.num curr_time)
    ∧ ∀ k, k ≠ "wts" →
        Crawler.dictLookup k
            (Crawler.WbiSigner.enc_wbi params img_key sub_key curr_time).1
          = Crawler.dictLookup k params :=
  ⟨rfl, fun k hk =>
    Crawler.dictLookup_dictSet_ne params k "wts" (Crawler.PVal.num curr_time) hk⟩

/-- Witness for the amended C5 at a one-entry map, the real-length demo
keys and key `mid`. -/
theorem enc_wbi_mutation_only_wts_witness :
    64 ≤ (Crawler.demoImgKey ++ Crawler.demoSubKey).length
    ∧ ((Crawler.WbiSigner.enc_wbi [("mid", Crawler.PVal.num 5)]
          Crawler.demoImgKey Crawler.demoSubKey 7).1
        = Crawler.dictSet [("mid", Crawler.PVal.num 5)] "wts" (Crawler.PVal.num 7))
    ∧ Crawler.dictLookup "mid"
          (Crawler.WbiSigner.enc_wbi [("mid", Crawler.PVal.num 5)]
            Crawler.demoImgKey Crawler.demoSubKey 7).1
        = Crawler.dictLookup "mid" [("mid", Crawler.PVal.num 5)] := by
  have h := enc_wbi_mutation_only_wts [("mid", Crawler.PVal.num 5)]
    Crawler.demoImgKey Crawler.demoSubKey 7 (by decide)
  exact ⟨by decide, h.1, h.2 "mid" (by decide)⟩

/-- **C6.** The claim (and the spec) require a non-null entry that fails
to parse to be logged and skipped while the rest of the page survives.
`fetcher.fetch_video_page` does that, but
`BiliApiClient._fetch_video_page` parses with a list comprehension, so
the first parse failure propagates and fails the whole page: on a page
of [good, bad, null, good] the fetcher path returns both good videos
while the client path returns the parse error. -/
theorem listing_page_single_bad_entry :
    Crawler.process_video_page_fetcher id
        [some (.ok Crawler.demoVideo), some (.error "ValidationError"),
         none, some (.ok Crawler.demoVideo2)]
      = [Crawler.demoVideo, Crawler.demoVideo2]
    ∧ Crawler.process_video_page_bili id
        [some (.ok Crawler.demoVideo), some (.error "ValidationError"),
         none, some (.ok Crawler.demoVideo2)]
      = .error "ValidationError" :=
  ⟨rfl, rfl⟩
